import Mathlib

/-!
Verification of the ScryptServer repository core logic.

The development shallowly embeds the hand-written logic of src/Worker.ts
(record encoding, parameter validation, hash and compare) and of
src/ScryptClient.ts (the remote/local availability state machine with
exponential backoff).

Modelling conventions:
- Buffers are lists of byte values (List Nat; the source reads and writes
  bytes with readUInt8/writeUInt8, so every stored value is below 256;
  theorems that need this carry it as an explicit hypothesis).
- The external scryptSync primitive is an explicit function parameter
  (type KDF below); as a Lean function it is deterministic in its
  arguments, which is exactly how the source treats it.
- randomBytes(n) returns a buffer of length n; hash therefore takes the
  salt as an explicit argument together with that length fact.
- The base64 transport (Buffer.from(s, base64) / buf.toString(base64))
  is a bijection between byte buffers and their base64 strings; the
  development works directly on the byte buffers on both sides of it.
- Thrown Error values are modelled with the Except monad; the WorkerError
  constructors are in one-to-one correspondence with the distinct thrown
  message strings of Worker.ts.
-/

namespace ScryptServer

/-- Errors thrown by Worker.ts, one constructor per distinct message string.
The spec name InvalidCost covers both invalidCostRange (message: Invalid cost
parameter (4096-524288)) and invalidCostNotPowerOfTwo (message: Invalid cost
(not be a power of 2)).  missingOrInvalidHashBuffer is the spec
TruncatedRecord, invalidHashBufferLength is the spec LengthMismatch. -/
inductive WorkerError where
  | missingOrTooMuchData
  | invalidSaltLength
  | invalidCostRange
  | invalidCostNotPowerOfTwo
  | invalidBlockSize
  | invalidParallelization
  | invalidSaltlen
  | invalidKeylen
  | derivedKeyLengthMismatch
  | missingOrInvalidHashBuffer
  | invalidHashBufferLength
  | unsupportedVersion
  deriving DecidableEq, Repr

/-- The ScryptParams interface of Worker.ts. -/
structure ScryptParams where
  cost : Nat
  blockSize : Nat
  parallelization : Nat
  saltlen : Nat
  keylen : Nat
  deriving DecidableEq, Repr

/-- The external scryptSync primitive, as a function of
(data, salt, keylen, cost, blockSize, parallelization) returning the
derived key bytes.  Worker.ts passes exactly these arguments. -/
def KDF : Type := String → List Nat → Nat → Nat → Nat → Nat → List Nat

/-- The constant BINARY_VERSION of Worker.ts. -/
def BINARY_VERSION : Nat := 0x02

/-- The timingSafeEqual primitive of node:crypto: byte-for-byte equality of
two equal-length buffers (the callers in Worker.ts compare buffers only
after checking the lengths coincide). -/
def timingSafeEqual (a b : List Nat) : Bool := decide (a = b)

/-- The function _hash of Worker.ts (lines 23-91): validates the data
length, the salt length, and the five parameters in source order, invokes
the KDF, checks the derived key length, and builds the version 2 record
[version, packed blockSize and parallelization, packed cost exponent and
saltlen, keylen, salt, derived key]. -/
def _hash (kdf : KDF) (data : String) (salt : List Nat) (params : ScryptParams) :
    Except WorkerError (List Nat) :=
  if 0 < data.length ∧ data.length ≤ 2048 then
    if params.saltlen = salt.length then
      if 4096 ≤ params.cost ∧ params.cost ≤ 524288 then
        if params.cost &&& (params.cost - 1) = 0 then
          if 1 ≤ params.blockSize ∧ params.blockSize ≤ 16 then
            if 1 ≤ params.parallelization ∧ params.parallelization ≤ 16 then
              if 16 ≤ params.saltlen ∧ params.saltlen ≤ 47 then
                if 16 ≤ params.keylen ∧ params.keylen ≤ 271 then
                  let derivedKey : List Nat :=
                    kdf data salt params.keylen params.cost params.blockSize params.parallelization
                  if derivedKey.length = params.keylen then
                    Except.ok
                      ([BINARY_VERSION,
                        ((params.blockSize - 1) <<< 4) ||| (params.parallelization - 1),
                        ((Nat.log2 params.cost - 12) <<< 5) ||| (params.saltlen - 16),
                        params.keylen - 16] ++ salt ++ derivedKey)
                  else Except.error WorkerError.derivedKeyLengthMismatch
                else Except.error WorkerError.invalidKeylen
              else Except.error WorkerError.invalidSaltlen
            else Except.error WorkerError.invalidParallelization
          else Except.error WorkerError.invalidBlockSize
        else Except.error WorkerError.invalidCostNotPowerOfTwo
      else Except.error WorkerError.invalidCostRange
    else Except.error WorkerError.invalidSaltLength
  else Except.error WorkerError.missingOrTooMuchData

/-- The function compare of Worker.ts (lines 93-171), on the decoded byte
buffer (the base64 layer is a bijection, see the module comment): checks
the data length, requires more than 6 bytes, dispatches on byte 0,
decodes the per-version header, re-derives through _hash with the decoded
parameters, and compares the re-derived record against the stored one with
timingSafeEqual when the lengths coincide (returning false otherwise). -/
def compare (kdf : KDF) (data : String) (hash : List Nat) : Except WorkerError Bool :=
  if 0 < data.length ∧ data.length ≤ 2048 then
    if 6 < hash.length then
      if hash.getD 0 0 = 0x01 then
        let saltlen : Nat := hash.getD 4 0
        let keylen : Nat := hash.getD 5 0
        let expectedLength : Nat := 6 + saltlen + keylen
        if expectedLength = hash.length then
          let blockSizeParallelization : Nat := hash.getD 3 0
          match _hash kdf data ((hash.drop 6).take saltlen)
              { cost := (hash.getD 1 0) * 256 + hash.getD 2 0,
                blockSize := blockSizeParallelization >>> 4,
                parallelization := blockSizeParallelization &&& 0x0F,
                saltlen := saltlen,
                keylen := keylen } with
          | Except.error e => Except.error e
          | Except.ok derivedKey =>
            if derivedKey.length = hash.length then
              Except.ok (timingSafeEqual derivedKey hash)
            else Except.ok false
        else Except.error WorkerError.invalidHashBufferLength
      else if hash.getD 0 0 = 0x02 then
        let block2 : Nat := hash.getD 2 0
        let saltlen : Nat := (block2 &&& 0x1F) + 16
        let keylen : Nat := hash.getD 3 0 + 16
        let expectedLength : Nat := 4 + saltlen + keylen
        if expectedLength = hash.length then
          let block1 : Nat := hash.getD 1 0
          match _hash kdf data ((hash.drop 4).take saltlen)
              { cost := 2 ^ ((block2 >>> 5) + 12),
                blockSize := (block1 >>> 4) + 1,
                parallelization := (block1 &&& 0x0F) + 1,
                saltlen := saltlen,
                keylen := keylen } with
          | Except.error e => Except.error e
          | Except.ok derivedKey =>
            if derivedKey.length = hash.length then
              Except.ok (timingSafeEqual derivedKey hash)
            else Except.ok false
        else Except.error WorkerError.invalidHashBufferLength
      else Except.error WorkerError.unsupportedVersion
    else Except.error WorkerError.missingOrInvalidHashBuffer
  else Except.error WorkerError.missingOrTooMuchData

/-- The function hash of Worker.ts (lines 173-176): draws a fresh salt of
length params.saltlen with randomBytes and returns the _hash record (the
source then base64-encodes it; we stay on the byte side of that
bijection).  The salt is an explicit argument here; every caller below
supplies the randomBytes length fact salt.length = params.saltlen. -/
def hash (kdf : KDF) (salt : List Nat) (data : String) (params : ScryptParams) :
    Except WorkerError (List Nat) :=
  _hash kdf data salt params

/-- The ScryptResponse interface of ScryptClient.ts: an optional error
message and an optional result. -/
structure ScryptResponse (T : Type) where
  error : Option String := none
  result : Option T := none
  deriving DecidableEq, Repr

/-- The retry backoff state of a ScryptClient instance: the fields
_consecutiveErrors and _offlineUntil (milliseconds, Date.now clock). -/
structure BackoffState where
  consecutiveErrors : Nat
  offlineUntil : Nat
  deriving DecidableEq, Repr

/-- The constant _backoffIncrement of ScryptClient.ts: 5000 ms. -/
def backoffIncrement : Nat := 5000

/-- The constant _maxBackoff of ScryptClient.ts: 300000 ms. -/
def maxBackoff : Nat := 300000

/-- The constructor starts with _consecutiveErrors = 0 and
_offlineUntil = 0. -/
def initialState : BackoffState := { consecutiveErrors := 0, offlineUntil := 0 }

/-- What one remote HTTP attempt can do, as observed by the client code:
the request call throws (transport error, timeout, TLS failure);
the request completes but response.body.json() throws; or the request
completes and the body parses to a ScryptResponse (which may itself carry
an error field, for example a validation error reported by the server). -/
inductive RemoteOutcome (T : Type) where
  | requestFailed (msg : String)
  | bodyParseFailed (msg : String)
  | responded (body : ScryptResponse T)

/-- The remote-attempt stage shared verbatim by ScryptClient.hash
(lines 82-104) and ScryptClient.compare (lines 118-143): if
Date.now() > _offlineUntil the remote call is made, otherwise it is
skipped with the Service is currently offline error.  On a completed
request the source first resets _consecutiveErrors to 0 and then parses
the body; hence a body-parse failure lands in the catch block with
_consecutiveErrors already reset, and ends with _consecutiveErrors = 1.
A thrown request increments _consecutiveErrors and pushes _offlineUntil
to now + min(_maxBackoff, _consecutiveErrors * _backoffIncrement). -/
def remoteStep {T : Type} (st : BackoffState) (now : Nat) (outcome : RemoteOutcome T) :
    BackoffState × ScryptResponse T :=
  if st.offlineUntil < now then
    match outcome with
    | RemoteOutcome.requestFailed msg =>
      let consecutiveErrors := st.consecutiveErrors + 1
      ({ consecutiveErrors := consecutiveErrors,
         offlineUntil := now + min maxBackoff (consecutiveErrors * backoffIncrement) },
       { error := some msg })
    | RemoteOutcome.bodyParseFailed msg =>
      ({ consecutiveErrors := 1,
         offlineUntil := now + min maxBackoff (1 * backoffIncrement) },
       { error := some msg })
    | RemoteOutcome.responded body =>
      ({ st with consecutiveErrors := 0 }, body)
  else (st, { error := some "Service is currently offline" })

/-- The local-fallback stage shared by ScryptClient.hash (lines 105-112)
and ScryptClient.compare (lines 144-152): when the remote stage left an
error set and a worker pool is configured, the call is submitted to the
pool and its outcome (result, or thrown message) replaces the response;
otherwise the remote response is returned unchanged.  The pool execution
itself is external (workerpool.exec), so its outcome is a parameter. -/
def localFallback {T : Type} (response : ScryptResponse T) (workerPool : Bool)
    (localOutcome : Except String T) : ScryptResponse T :=
  if response.error.isSome ∧ workerPool then
    match localOutcome with
    | Except.ok r => { result := some r }
    | Except.error msg => { error := some msg }
  else response

/-- One whole client call (hash or compare): the remote attempt followed
by the local fallback stage, returning the new backoff state and the
response handed to the caller. -/
def clientCall {T : Type} (st : BackoffState) (now : Nat) (outcome : RemoteOutcome T)
    (workerPool : Bool) (localOutcome : Except String T) :
    BackoffState × ScryptResponse T :=
  let step := remoteStep st now outcome
  (step.1, localFallback step.2 workerPool localOutcome)

/-- Iterated thrown-request failures: the backoff state after attempting
the remote call at each listed time and seeing the request throw with the
listed message. -/
def runTransportFailures (st : BackoffState) : List (Nat × String) → BackoffState
  | [] => st
  | (now, msg) :: rest =>
    runTransportFailures (remoteStep (T := Unit) st now (RemoteOutcome.requestFailed msg)).1 rest

/-- Every listed attempt actually fires: at each attempt time the clock
has passed the offlineUntil of the state reached so far. -/
def attemptsFire (st : BackoffState) : List (Nat × String) → Prop
  | [] => True
  | (now, msg) :: rest =>
    st.offlineUntil < now ∧
      attemptsFire (remoteStep (T := Unit) st now (RemoteOutcome.requestFailed msg)).1 rest

/-- The time of the last attempt in a list (0 for the empty list). -/
def lastTime : List (Nat × String) → Nat
  | [] => 0
  | [(now, _)] => now
  | _ :: rest => lastTime rest

/-- The first validation error reported by _hash for a given data length
and parameter set, in source check order (data length, cost range, cost a
power of two, blockSize, parallelization, saltlen, keylen), or none when
every check passes.  The salt-length equality check of _hash sits between
the data and cost checks but always passes when the salt has the declared
length, as it does for every salt drawn by hash via randomBytes. -/
def firstValidationError (dataLen : Nat) (params : ScryptParams) : Option WorkerError :=
  if 0 < dataLen ∧ dataLen ≤ 2048 then
    if 4096 ≤ params.cost ∧ params.cost ≤ 524288 then
      if params.cost &&& (params.cost - 1) = 0 then
        if 1 ≤ params.blockSize ∧ params.blockSize ≤ 16 then
          if 1 ≤ params.parallelization ∧ params.parallelization ≤ 16 then
            if 16 ≤ params.saltlen ∧ params.saltlen ≤ 47 then
              if 16 ≤ params.keylen ∧ params.keylen ≤ 271 then none
              else some WorkerError.invalidKeylen
            else some WorkerError.invalidSaltlen
          else some WorkerError.invalidParallelization
        else some WorkerError.invalidBlockSize
      else some WorkerError.invalidCostNotPowerOfTwo
    else some WorkerError.invalidCostRange
  else some WorkerError.missingOrTooMuchData

/-- A concrete stand-in for the external KDF, used to instantiate the
hypothesis-bearing theorems at explicit inputs: it returns keylen zero
bytes, so it honours the derived-key length contract. -/
def kdfZero : KDF := fun _ _ keylen _ _ _ => List.replicate keylen 0

/-- Packing two 4-bit fields into one byte is reversible. -/
theorem pack4_unpack : ∀ x < 16, ∀ y < 16,
    ((x <<< 4) ||| y) >>> 4 = x ∧ ((x <<< 4) ||| y) &&& 15 = y ∧ ((x <<< 4) ||| y) < 256 := by
  decide

/-- Packing a 3-bit and a 5-bit field into one byte is reversible. -/
theorem pack5_unpack : ∀ e < 8, ∀ s < 32,
    ((e <<< 5) ||| s) >>> 5 = e ∧ ((e <<< 5) ||| s) &&& 31 = s ∧ ((e <<< 5) ||| s) < 256 := by
  decide

set_option maxRecDepth 4096 in
/-- Splitting a byte at bit 4 and repacking gives the byte back. -/
theorem byte_unpack4 : ∀ b < 256, ((b >>> 4) <<< 4) ||| (b &&& 15) = b := by
  decide

set_option maxRecDepth 4096 in
/-- Splitting a byte at bit 5 and repacking gives the byte back. -/
theorem byte_unpack5 : ∀ b < 256, ((b >>> 5) <<< 5) ||| (b &&& 31) = b := by
  decide

set_option maxRecDepth 4096 in
/-- The high three bits of a byte are below 8. -/
theorem byte_shift5_lt : ∀ b < 256, b >>> 5 < 8 := by
  decide

set_option maxRecDepth 4096 in
/-- The high four bits of a byte are below 16. -/
theorem byte_shift4_lt : ∀ b < 256, b >>> 4 < 16 := by
  decide

/-- A power of two with exponent in the version 2 range passes the
bitwise power-of-two test of _hash. -/
theorem pow_land_pred : ∀ e < 8, 2 ^ (e + 12) &&& (2 ^ (e + 12) - 1) = 0 := by
  decide

/-- The base-two logarithm of a power of two. -/
theorem log2_two_pow (n : Nat) : Nat.log2 (2 ^ n) = n := by
  rw [Nat.log2_eq_log_two]
  exact Nat.log_pow (by norm_num) n

/-- On valid data, a salt of the declared length, parameters inside the
version 2 bounds and a KDF honouring keylen, _hash succeeds and returns
exactly the version 2 record layout. -/
theorem _hash_ok (kdf : KDF) (data : String) (salt : List Nat) (p : ScryptParams)
    (hdata : 0 < data.length ∧ data.length ≤ 2048)
    (hsalt : salt.length = p.saltlen)
    (hcost : 4096 ≤ p.cost ∧ p.cost ≤ 524288)
    (hpow : p.cost &&& (p.cost - 1) = 0)
    (hbs : 1 ≤ p.blockSize ∧ p.blockSize ≤ 16)
    (hpl : 1 ≤ p.parallelization ∧ p.parallelization ≤ 16)
    (hsl : 16 ≤ p.saltlen ∧ p.saltlen ≤ 47)
    (hkl : 16 ≤ p.keylen ∧ p.keylen ≤ 271)
    (hlen : (kdf data salt p.keylen p.cost p.blockSize p.parallelization).length = p.keylen) :
    _hash kdf data salt p = Except.ok
      ([BINARY_VERSION,
        ((p.blockSize - 1) <<< 4) ||| (p.parallelization - 1),
        ((Nat.log2 p.cost - 12) <<< 5) ||| (p.saltlen - 16),
        p.keylen - 16] ++ salt ++
        kdf data salt p.keylen p.cost p.blockSize p.parallelization) := by
  unfold _hash
  rw [if_pos hdata, if_pos hsalt.symm, if_pos hcost, if_pos hpow, if_pos hbs, if_pos hpl,
    if_pos hsl, if_pos hkl]
  simp only [hlen, if_true, eq_self_iff_true]

/-- The cost decoded from a version 2 record is inside the validated
range. -/
theorem pow_cost_range : ∀ e < 8, 4096 ≤ 2 ^ (e + 12) ∧ 2 ^ (e + 12) ≤ 524288 := by
  decide

/-- On any syntactically consistent version 2 record (leading byte 2 and
total length 4 + saltlen + keylen for the decoded lengths) and valid
data, compare succeeds and returns exactly whether the freshly derived
key is byte-for-byte equal to the stored key. -/
theorem compare_v2_spec (kdf : KDF) (data : String)
    (hdata : 0 < data.length ∧ data.length ≤ 2048)
    (b1 b2 b3 : Nat) (hb1 : b1 < 256) (hb2 : b2 < 256) (hb3 : b3 < 256)
    (salt key : List Nat)
    (hsalt : salt.length = (b2 &&& 31) + 16)
    (hkey : key.length = b3 + 16)
    (hlen : (kdf data salt (b3 + 16) (2 ^ ((b2 >>> 5) + 12)) ((b1 >>> 4) + 1)
        ((b1 &&& 15) + 1)).length = b3 + 16) :
    compare kdf data (2 :: b1 :: b2 :: b3 :: (salt ++ key)) =
      Except.ok (decide (kdf data salt (b3 + 16) (2 ^ ((b2 >>> 5) + 12)) ((b1 >>> 4) + 1)
        ((b1 &&& 15) + 1) = key)) := by
  have hL : (2 :: b1 :: b2 :: b3 :: (salt ++ key)).length
      = 4 + ((b2 &&& 31) + 16) + (b3 + 16) := by
    simp only [List.length_cons, List.length_append, hsalt, hkey]
    omega
  have he : b2 >>> 5 < 8 := byte_shift5_lt b2 hb2
  have hbs : 1 ≤ (b1 >>> 4) + 1 ∧ (b1 >>> 4) + 1 ≤ 16 := by
    have := byte_shift4_lt b1 hb1
    omega
  have hpl : 1 ≤ (b1 &&& 15) + 1 ∧ (b1 &&& 15) + 1 ≤ 16 := by
    have : b1 &&& 15 ≤ 15 := Nat.and_le_right
    omega
  have hsl : 16 ≤ (b2 &&& 31) + 16 ∧ (b2 &&& 31) + 16 ≤ 47 := by
    have : b2 &&& 31 ≤ 31 := Nat.and_le_right
    omega
  have hkl : 16 ≤ b3 + 16 ∧ b3 + 16 ≤ 271 := by omega
  have hok := _hash_ok kdf data salt
    { cost := 2 ^ ((b2 >>> 5) + 12), blockSize := (b1 >>> 4) + 1,
      parallelization := (b1 &&& 15) + 1, saltlen := (b2 &&& 31) + 16, keylen := b3 + 16 }
    hdata hsalt (pow_cost_range _ he) (pow_land_pred _ he) hbs hpl hsl hkl hlen
  have hok2 : _hash kdf data salt
      { cost := 2 ^ ((b2 >>> 5) + 12), blockSize := (b1 >>> 4) + 1,
        parallelization := (b1 &&& 15) + 1, saltlen := (b2 &&& 31) + 16, keylen := b3 + 16 } =
      Except.ok (2 :: b1 :: b2 :: b3 :: (salt ++
        kdf data salt (b3 + 16) (2 ^ ((b2 >>> 5) + 12)) ((b1 >>> 4) + 1) ((b1 &&& 15) + 1))) := by
    rw [hok]
    simp only [BINARY_VERSION, Nat.add_sub_cancel, log2_two_pow, byte_unpack4 b1 hb1,
      byte_unpack5 b2 hb2, List.cons_append, List.nil_append]
  have htake : List.take ((b2 &&& 31) + 16) (salt ++ key) = salt := by
    rw [← hsalt]
    exact List.take_left salt key
  have hfreshlen : (2 :: b1 :: b2 :: b3 :: (salt ++
      kdf data salt (b3 + 16) (2 ^ ((b2 >>> 5) + 12)) ((b1 >>> 4) + 1)
        ((b1 &&& 15) + 1))).length = (2 :: b1 :: b2 :: b3 :: (salt ++ key)).length := by
    simp only [List.length_cons, List.length_append, hkey, hlen]
  unfold compare
  rw [if_pos hdata, if_pos (by omega : 6 < (2 :: b1 :: b2 :: b3 :: (salt ++ key)).length)]
  simp only [List.getD_cons_zero, List.getD_cons_succ, List.drop_succ_cons, List.drop_zero,
    htake, hok2, hL.symm, if_true, eq_self_iff_true]
  rw [if_neg (by decide : ¬((2 : Nat) = 1)), if_pos hfreshlen]
  unfold timingSafeEqual
  congr 1
  rw [decide_eq_decide]
  simp only [List.cons.injEq, true_and]
  exact iff_of_eq (List.append_cancel_left_eq salt _ key)

/-- Binding a successful Except value just applies the continuation. -/
theorem except_bind_ok {ε α β : Type} (a : α) (f : α → Except ε β) :
    (Except.ok (ε := ε) a).bind f = f a := rfl

/-- C2: the claim is right and the code is wrong.  The V1 compare path
can never verify a record: at the input below the stored derived key is
exactly the KDF output for the records own salt and parameters, yet
compare returns false, because _hash re-encodes the re-derived record in
the version 2 layout (4 + saltlen + keylen bytes), which never matches
the 6 + saltlen + keylen byte version 1 buffer.  The third conjunct shows
the re-derivation also applies the current version 2 bounds: a version 1
record with the historically valid cost 1024 is rejected with the
cost-range error instead of being verified.  This contradicts the spec
and the repository README (version 2 "backward compatible with version
1"). -/
theorem C2_v1_compare_broken :
    kdfZero "password123" (List.replicate 16 1) 16 4096 8 4 = List.replicate 16 0 ∧
    compare kdfZero "password123"
      ([1, 16, 0, 0x84, 16, 16] ++ List.replicate 16 1 ++ List.replicate 16 0) =
      Except.ok false ∧
    compare kdfZero "password123"
      ([1, 4, 0, 0x84, 16, 16] ++ List.replicate 16 1 ++ List.replicate 16 0) =
      Except.error WorkerError.invalidCostRange :=
  ⟨rfl, rfl, rfl⟩

/-- C3 counterexample: a well-formed version 1 record that decodes
successfully, whose stored derived key is byte-for-byte equal to the
freshly derived key (first conjunct), yet compare returns false, not
true, so compare is not the byte comparison of the two keys on the V1
path. -/
theorem C3_counterexample :
    kdfZero "mySecretPassword" (List.replicate 16 2) 16 4096 8 4 = List.replicate 16 0 ∧
    compare kdfZero "mySecretPassword"
      ([1, 16, 0, 0x84, 16, 16] ++ List.replicate 16 2 ++ List.replicate 16 0) =
      Except.ok false ∧
    (Except.ok false : Except WorkerError Bool) ≠ Except.ok true :=
  ⟨rfl, rfl, by simp⟩

/-- C3 (amended): for every well-formed version 2 record that decodes
successfully and every valid data text, compare returns exactly the
result of a byte comparison between the freshly derived key and the
stored derived key: true if and only if the two keys are byte-for-byte
equal.  The version 1 half of the original claim is refuted by
C3_counterexample. -/
theorem C3_v2_compare_is_byte_comparison (kdf : KDF)
    (hkdf : ∀ d s kl c bs pl, (kdf d s kl c bs pl).length = kl)
    (data : String) (hdata : 0 < data.length ∧ data.length ≤ 2048)
    (b1 b2 b3 : Nat) (hb1 : b1 < 256) (hb2 : b2 < 256) (hb3 : b3 < 256)
    (salt key : List Nat)
    (hsalt : salt.length = (b2 &&& 31) + 16)
    (hkey : key.length = b3 + 16) :
    compare kdf data (2 :: b1 :: b2 :: b3 :: (salt ++ key)) =
      Except.ok (decide (kdf data salt (b3 + 16) (2 ^ ((b2 >>> 5) + 12)) ((b1 >>> 4) + 1)
        ((b1 &&& 15) + 1) = key)) :=
  compare_v2_spec kdf data hdata b1 b2 b3 hb1 hb2 hb3 salt key hsalt hkey
    (hkdf data salt (b3 + 16) (2 ^ ((b2 >>> 5) + 12)) ((b1 >>> 4) + 1) ((b1 &&& 15) + 1))

/-- Witness for C3: the amended theorem applied at a concrete record. -/
theorem C3_v2_compare_witness :
    compare kdfZero "a" (2 :: 0 :: 0 :: 0 :: (List.replicate 16 0 ++ List.replicate 16 0)) =
      Except.ok (decide (kdfZero "a" (List.replicate 16 0) (0 + 16) (2 ^ ((0 >>> 5) + 12))
        ((0 >>> 4) + 1) ((0 &&& 15) + 1) = List.replicate 16 0)) :=
  C3_v2_compare_is_byte_comparison kdfZero (fun _ _ kl _ _ _ => by simp [kdfZero]) "a"
    (by decide) 0 0 0 (by decide) (by decide) (by decide)
    (List.replicate 16 0) (List.replicate 16 0) (by decide) (by decide)

/-- C4 counterexample: a 5-byte buffer whose first byte is 2 (so at least
the 4-byte version 2 header is present) fails with the truncated-record
error (message: Missing or invalid hash buffer), not with the
length-mismatch error, because compare requires more than 6 bytes before
it even dispatches on the version byte. -/
theorem C4_counterexample :
    compare kdfZero "a" [2, 0, 0, 0, 0] = Except.error WorkerError.missingOrInvalidHashBuffer ∧
    compare kdfZero "a" [2, 0, 0, 0, 0] ≠ Except.error WorkerError.invalidHashBufferLength := by
  refine ⟨rfl, fun h => ?_⟩
  rw [show compare kdfZero "a" [2, 0, 0, 0, 0] =
    Except.error WorkerError.missingOrInvalidHashBuffer from rfl] at h
  injection h with h2
  exact absurd h2 (by decide)

/-- C4 (amended): the decode step of compare fails with the
truncated-record error for every input of length at most 6 (in
particular every 3-byte buffer and also the 5-byte buffer of
C4_counterexample), with the unsupported-version error for every longer
input whose byte 0 is neither 1 nor 2, and with the length-mismatch
error for every longer input of a recognized version whose declared
saltlen/keylen do not account for the remaining bytes exactly. -/
theorem C4_decode_errors (kdf : KDF) (data : String)
    (hdata : 0 < data.length ∧ data.length ≤ 2048) (record : List Nat) :
    (record.length ≤ 6 →
      compare kdf data record = Except.error WorkerError.missingOrInvalidHashBuffer) ∧
    (6 < record.length → record.getD 0 0 ≠ 1 → record.getD 0 0 ≠ 2 →
      compare kdf data record = Except.error WorkerError.unsupportedVersion) ∧
    (6 < record.length → record.getD 0 0 = 1 →
      6 + record.getD 4 0 + record.getD 5 0 ≠ record.length →
      compare kdf data record = Except.error WorkerError.invalidHashBufferLength) ∧
    (6 < record.length → record.getD 0 0 = 2 →
      4 + ((record.getD 2 0 &&& 31) + 16) + (record.getD 3 0 + 16) ≠ record.length →
      compare kdf data record = Except.error WorkerError.invalidHashBufferLength) := by
  refine ⟨fun h6 => ?_, fun h6 hv1 hv2 => ?_, fun h6 hv hlen => ?_, fun h6 hv hlen => ?_⟩
  · unfold compare
    rw [if_pos hdata, if_neg (by omega)]
  · unfold compare
    rw [if_pos hdata, if_pos h6, if_neg hv1, if_neg hv2]
  · unfold compare
    rw [if_pos hdata, if_pos h6, if_pos hv, if_neg hlen]
  · unfold compare
    rw [if_pos hdata, if_pos h6, if_neg (by omega), if_pos hv, if_neg hlen]

/-- Witness for C4: the amended theorem applied at a 3-byte buffer. -/
theorem C4_decode_errors_witness :
    compare kdfZero "a" [0, 0, 0] = Except.error WorkerError.missingOrInvalidHashBuffer :=
  (C4_decode_errors kdfZero "a" (by decide) [0, 0, 0]).1 (by decide)

/-- C8 counterexample: a remote call made while Online whose HTTP
exchange completes and whose parsed body carries an error (here a
validation error reported by the server) does not increment
consecutiveErrors: the source resets the counter to 0 as soon as the
request completes, before even looking at the body, and offlineUntil is
left unchanged (the client stays Online).  The claim would require
consecutiveErrors = 3 + 1. -/
theorem C8_counterexample :
    (remoteStep (T := String) { consecutiveErrors := 3, offlineUntil := 0 } 1
      (RemoteOutcome.responded { error := some "Invalid cost parameter (4096-524288)" })).1 =
      { consecutiveErrors := 0, offlineUntil := 0 } ∧
    (0 : Nat) ≠ 3 + 1 :=
  ⟨rfl, by decide⟩

/-- C8 (amended): for a remote call made while Online, only a thrown
request (transport-class failure) increments consecutiveErrors by exactly
one and sets offlineUntil = now + min(maxBackoff, newCount *
backoffIncrement); a completed HTTP exchange resets consecutiveErrors to
0 and leaves offlineUntil unchanged regardless of whether the parsed body
is a success or an error response; and a body-parse failure after a
completed exchange ends with consecutiveErrors exactly 1 (the counter was
already reset when the parse threw). -/
theorem C8_remote_step_characterization {T : Type} (st : BackoffState) (now : Nat)
    (h : st.offlineUntil < now) :
    (∀ msg, (remoteStep (T := T) st now (RemoteOutcome.requestFailed msg)).1 =
      { consecutiveErrors := st.consecutiveErrors + 1,
        offlineUntil := now + min maxBackoff ((st.consecutiveErrors + 1) * backoffIncrement) }) ∧
    (∀ msg, (remoteStep (T := T) st now (RemoteOutcome.bodyParseFailed msg)).1 =
      { consecutiveErrors := 1, offlineUntil := now + min maxBackoff (1 * backoffIncrement) }) ∧
    (∀ body, (remoteStep (T := T) st now (RemoteOutcome.responded body)).1 =
      { consecutiveErrors := 0, offlineUntil := st.offlineUntil }) := by
  refine ⟨fun msg => ?_, fun msg => ?_, fun body => ?_⟩ <;>
    (unfold remoteStep; rw [if_pos h])

/-- Witness for C8: the amended characterization applied to one thrown
request. -/
theorem C8_remote_step_witness :
    (remoteStep (T := Unit) { consecutiveErrors := 2, offlineUntil := 5 } 6
      (RemoteOutcome.requestFailed "boom")).1 =
      { consecutiveErrors := 2 + 1,
        offlineUntil := 6 + min maxBackoff ((2 + 1) * backoffIncrement) } :=
  (C8_remote_step_characterization { consecutiveErrors := 2, offlineUntil := 5 } 6
    (by decide)).1 "boom"

/-- C9 counterexample: the remote service completes the exchange and
returns a validation error in the response body; with a worker pool
configured the client does not return that error verbatim: it runs the
local fallback and returns the local outcome instead (here a successful
local comparison). -/
theorem C9_counterexample :
    (clientCall (T := Bool) initialState 1
      (RemoteOutcome.responded { error := some "Invalid cost parameter (4096-524288)" })
      true (Except.ok true)).2 = { error := none, result := some true } ∧
    ({ error := none, result := some true } : ScryptResponse Bool) ≠
      { error := some "Invalid cost parameter (4096-524288)", result := none } := by
  refine ⟨rfl, ?_⟩
  simp

/-- C9 (amended): after any remote attempt whose response carries an
error — transport failure, offline skip, or an error field in a
completed response body — the client runs the local fallback and returns
its outcome whenever a worker pool is configured; the remote response is
returned unchanged exactly when no pool is configured or the remote
response carries no error. -/
theorem C9_fallback_after_any_error {T : Type} (st : BackoffState) (now : Nat)
    (outcome : RemoteOutcome T) (localOutcome : Except String T) :
    ((clientCall st now outcome false localOutcome).2 = (remoteStep st now outcome).2) ∧
    ((remoteStep st now outcome).2.error.isSome →
      (clientCall st now outcome true localOutcome).2 =
        (match localOutcome with
          | Except.ok r => { result := some r }
          | Except.error msg => { error := some msg })) ∧
    ((remoteStep st now outcome).2.error = none →
      (clientCall st now outcome true localOutcome).2 = (remoteStep st now outcome).2) := by
  refine ⟨?_, fun herr => ?_, fun hnone => ?_⟩
  · simp [clientCall, localFallback]
  · simp [clientCall, localFallback, herr]
  · simp [clientCall, localFallback, hnone]

/-- Witness for C9: a thrown request with a configured pool hands back
the local outcome. -/
theorem C9_fallback_witness :
    (clientCall (T := Bool) initialState 1 (RemoteOutcome.requestFailed "down") true
      (Except.ok true)).2 = { error := none, result := some true } :=
  (C9_fallback_after_any_error initialState 1 (RemoteOutcome.requestFailed "down")
    (Except.ok true)).2.1 rfl

/-- The backoff state after a list of thrown remote attempts that all
fire: consecutiveErrors grows by the number of attempts and offlineUntil
becomes the last attempt time plus the capped backoff for the total
count. -/
theorem runTransportFailures_spec (attempts : List (Nat × String)) :
    ∀ st : BackoffState, attemptsFire st attempts →
      (runTransportFailures st attempts).consecutiveErrors
          = st.consecutiveErrors + attempts.length ∧
      (attempts ≠ [] →
        (runTransportFailures st attempts).offlineUntil
          = lastTime attempts
              + min maxBackoff ((st.consecutiveErrors + attempts.length) * backoffIncrement)) := by
  induction attempts with
  | nil =>
    intro st _
    exact ⟨by simp [runTransportFailures], fun h => absurd rfl h⟩
  | cons head rest ih =>
    obtain ⟨now, msg⟩ := head
    intro st hfire
    obtain ⟨hnow, hrest⟩ := hfire
    have hstep : (remoteStep (T := Unit) st now (RemoteOutcome.requestFailed msg)).1
        = { consecutiveErrors := st.consecutiveErrors + 1,
            offlineUntil := now
              + min maxBackoff ((st.consecutiveErrors + 1) * backoffIncrement) } := by
      unfold remoteStep
      rw [if_pos hnow]
    rw [hstep] at hrest
    obtain ⟨ihce, ihoff⟩ := ih _ hrest
    simp only [] at ihce ihoff
    rw [show runTransportFailures st ((now, msg) :: rest)
        = runTransportFailures
            (remoteStep (T := Unit) st now (RemoteOutcome.requestFailed msg)).1 rest
      from rfl, hstep]
    cases rest with
    | nil =>
      refine ⟨?_, fun _ => ?_⟩
      · simp [runTransportFailures]
      · simp [runTransportFailures, lastTime]
    | cons b rest2 =>
      refine ⟨?_, fun _ => ?_⟩
      · rw [ihce]
        simp only [List.length_cons]
        omega
      · rw [ihoff (by simp)]
        have hlt : lastTime ((now, msg) :: b :: rest2) = lastTime (b :: rest2) := rfl
        rw [hlt]
        simp only [List.length_cons, maxBackoff, backoffIncrement]
        omega

/-- C7: after n (at least 1) consecutive thrown remote attempts — the
catch path of an attempt whose request never completed — with no
intervening completed attempt, starting from the initial state, the
backoff state satisfies offlineUntil - now = min(300000 ms, n * 5000 ms)
with now the clock at the n-th failure and consecutiveErrors = n; and a
single successful remote attempt resets consecutiveErrors to 0. -/
theorem C7_backoff_monotonicity (attempts : List (Nat × String)) (hne : attempts ≠ [])
    (hfire : attemptsFire initialState attempts) :
    ((runTransportFailures initialState attempts).offlineUntil - lastTime attempts
        = min 300000 (attempts.length * 5000) ∧
      (runTransportFailures initialState attempts).consecutiveErrors = attempts.length) ∧
    (∀ (st : BackoffState) (now : Nat) (r : Unit), st.offlineUntil < now →
      (remoteStep st now (RemoteOutcome.responded { result := some r })).1.consecutiveErrors
        = 0) := by
  obtain ⟨hce, hoff⟩ := runTransportFailures_spec attempts initialState hfire
  refine ⟨⟨?_, ?_⟩, fun st now r h => ?_⟩
  · rw [hoff hne]
    simp only [initialState, maxBackoff, backoffIncrement, Nat.zero_add]
    omega
  · rw [hce]
    simp [initialState]
  · unfold remoteStep
    rw [if_pos h]

/-- Witness for C7: one thrown attempt at time 1. -/
theorem C7_backoff_witness :
    (runTransportFailures initialState [(1, "timeout")]).offlineUntil - lastTime [(1, "timeout")]
      = min 300000 ([(1, "timeout")].length * 5000) :=
  (C7_backoff_monotonicity [(1, "timeout")] (by simp) ⟨by decide, trivial⟩).1.1

/-- C10: every syntactically consistent version 2 record (leading byte 2,
total length 4 + saltlen + keylen for the decoded lengths) decodes to
parameters that necessarily lie within the version 2 validation bounds —
the cost exponent is in [12, 19] so the cost, a power of two, is in
[4096, 524288], blockSize and parallelization are in [1, 16], saltlen in
[16, 47], keylen in [16, 271] — so on the V2 compare path the
parameter-validation failure branches of _hash are unreachable: for any
valid data the comparison completes with a boolean. -/
theorem C10_v2_decode_within_bounds (kdf : KDF)
    (hkdf : ∀ d s kl c bs pl, (kdf d s kl c bs pl).length = kl)
    (data : String) (hdata : 0 < data.length ∧ data.length ≤ 2048)
    (b1 b2 b3 : Nat) (hb1 : b1 < 256) (hb2 : b2 < 256) (hb3 : b3 < 256)
    (salt key : List Nat)
    (hsalt : salt.length = (b2 &&& 31) + 16)
    (hkey : key.length = b3 + 16) :
    (12 ≤ (b2 >>> 5) + 12 ∧ (b2 >>> 5) + 12 ≤ 19) ∧
    (4096 ≤ 2 ^ ((b2 >>> 5) + 12) ∧ 2 ^ ((b2 >>> 5) + 12) ≤ 524288) ∧
    (1 ≤ (b1 >>> 4) + 1 ∧ (b1 >>> 4) + 1 ≤ 16) ∧
    (1 ≤ (b1 &&& 15) + 1 ∧ (b1 &&& 15) + 1 ≤ 16) ∧
    (16 ≤ (b2 &&& 31) + 16 ∧ (b2 &&& 31) + 16 ≤ 47) ∧
    (16 ≤ b3 + 16 ∧ b3 + 16 ≤ 271) ∧
    ∃ result, compare kdf data (2 :: b1 :: b2 :: b3 :: (salt ++ key)) = Except.ok result := by
  have he := byte_shift5_lt b2 hb2
  have h4 := byte_shift4_lt b1 hb1
  have h15 : b1 &&& 15 ≤ 15 := Nat.and_le_right
  have h31 : b2 &&& 31 ≤ 31 := Nat.and_le_right
  refine ⟨⟨by omega, by omega⟩, pow_cost_range _ he, ⟨by omega, by omega⟩,
    ⟨by omega, by omega⟩, ⟨by omega, by omega⟩, ⟨by omega, by omega⟩,
    _, compare_v2_spec kdf data hdata b1 b2 b3 hb1 hb2 hb3 salt key hsalt hkey
      (hkdf data salt (b3 + 16) (2 ^ ((b2 >>> 5) + 12)) ((b1 >>> 4) + 1) ((b1 &&& 15) + 1))⟩

/-- Witness for C10: a concrete version 2 record with all header fields
zero. -/
theorem C10_v2_decode_witness :
    ∃ result, compare kdfZero "b" (2 :: 0 :: 0 :: 0 ::
      (List.replicate 16 0 ++ List.replicate 16 0)) = Except.ok result :=
  (C10_v2_decode_within_bounds kdfZero (fun _ _ kl _ _ _ => by simp [kdfZero]) "b"
    (by decide) 0 0 0 (by decide) (by decide) (by decide)
    (List.replicate 16 0) (List.replicate 16 0) (by decide) (by decide)).2.2.2.2.2.2

/-- A power of two with exponent in [12, 19] is in [4096, 524288] and
passes the bitwise power-of-two test. -/
theorem exp_range_facts : ∀ k, 12 ≤ k → k ≤ 19 →
    4096 ≤ 2 ^ k ∧ 2 ^ k ≤ 524288 ∧ 2 ^ k &&& (2 ^ k - 1) = 0 := by
  intro k h1 h2
  interval_cases k <;> decide

/-- C1: for every parameter set inside the version 2 bounds (cost a
power of two 2^k with k in [12, 19], blockSize and parallelization in
[1, 16], saltlen in [16, 47], keylen in [16, 271]), every data text of
length 1..2048, and every salt of the declared length (as drawn by
randomBytes), compare accepts the record produced by hash, under the
hypothesis that the external KDF is a function of
(data, salt, keylen, cost, blockSize, parallelization) honouring the
keylen contract. -/
theorem C1_hash_compare_roundtrip (kdf : KDF)
    (hkdf : ∀ d s kl c bs pl, (kdf d s kl c bs pl).length = kl)
    (p : ScryptParams) (k : Nat)
    (hcost : p.cost = 2 ^ k) (hk1 : 12 ≤ k) (hk2 : k ≤ 19)
    (hbs : 1 ≤ p.blockSize ∧ p.blockSize ≤ 16)
    (hpl : 1 ≤ p.parallelization ∧ p.parallelization ≤ 16)
    (hsl : 16 ≤ p.saltlen ∧ p.saltlen ≤ 47)
    (hkl : 16 ≤ p.keylen ∧ p.keylen ≤ 271)
    (data : String) (hdata : 0 < data.length ∧ data.length ≤ 2048)
    (salt : List Nat) (hsalt : salt.length = p.saltlen) :
    (hash kdf salt data p).bind (fun record => compare kdf data record) = Except.ok true := by
  obtain ⟨hc1, hc2, hpow⟩ := exp_range_facts k hk1 hk2
  rw [← hcost] at hc1 hc2 hpow
  have hlen := hkdf data salt p.keylen p.cost p.blockSize p.parallelization
  have hok := _hash_ok kdf data salt p hdata hsalt ⟨hc1, hc2⟩ hpow hbs hpl hsl hkl hlen
  have hlog : Nat.log2 p.cost = k := by rw [hcost]; exact log2_two_pow k
  have hB1 := pack4_unpack (p.blockSize - 1) (by omega) (p.parallelization - 1) (by omega)
  have hB2 := pack5_unpack (k - 12) (by omega) (p.saltlen - 16) (by omega)
  unfold hash
  rw [hok, except_bind_ok, hlog]
  simp only [BINARY_VERSION, List.cons_append, List.nil_append]
  have hsalt2 : salt.length
      = ((((k - 12) <<< 5) ||| (p.saltlen - 16)) &&& 31) + 16 := by
    rw [hB2.2.1]
    omega
  have hkey2 : (kdf data salt p.keylen p.cost p.blockSize p.parallelization).length
      = (p.keylen - 16) + 16 := by
    rw [hlen]
    omega
  rw [compare_v2_spec kdf data hdata _ _ _ hB1.2.2 hB2.2.2 (by omega : p.keylen - 16 < 256)
    salt _ hsalt2 hkey2 (hkdf data salt _ _ _ _)]
  rw [hB2.1, hB1.1, hB1.2.1]
  have e1 : p.keylen - 16 + 16 = p.keylen := by omega
  have e2 : k - 12 + 12 = k := by omega
  have e3 : p.blockSize - 1 + 1 = p.blockSize := by omega
  have e4 : p.parallelization - 1 + 1 = p.parallelization := by omega
  rw [e1, e2, e3, e4, ← hcost]
  simp

/-- Witness for C1: concrete minimal parameters, a one-character text and
an all-zero salt. -/
theorem C1_roundtrip_witness :
    (hash kdfZero (List.replicate 16 0) "pw"
        (ScryptParams.mk 4096 1 1 16 16)).bind
      (fun record => compare kdfZero "pw" record) = Except.ok true :=
  C1_hash_compare_roundtrip kdfZero (fun _ _ kl _ _ _ => by simp [kdfZero])
    (ScryptParams.mk 4096 1 1 16 16) 12
    (by decide) (by decide) (by decide) (by decide) (by decide) (by decide) (by decide)
    "pw" (by decide) (List.replicate 16 0) (by decide)

/-- C5: _hash validates, in source order and short circuiting on the
first failure: data length in 1..2048, cost in [4096, 524288], cost a
power of two, blockSize in [1, 16], parallelization in [1, 16], saltlen
in [16, 47], keylen in [16, 271].  The error reported is always the
first failed check in that order (conjunct 1, via firstValidationError,
written in exactly that order), validation succeeds exactly when no
check fails (conjunct 2), and the boundary cases of the claim hold
(final block; the two cost constructors both carry the spec name
InvalidCost). -/
theorem C5_validation_order (kdf : KDF)
    (hkdf : ∀ d s kl c bs pl, (kdf d s kl c bs pl).length = kl)
    (data : String) (salt : List Nat) (p : ScryptParams)
    (hsalt : salt.length = p.saltlen) :
    (∀ e, _hash kdf data salt p = Except.error e ↔
      firstValidationError data.length p = some e) ∧
    (firstValidationError data.length p = none →
      ∃ record, _hash kdf data salt p = Except.ok record) ∧
    (firstValidationError 4 (ScryptParams.mk 4096 8 1 16 32) = none ∧
      firstValidationError 4 (ScryptParams.mk 524288 8 1 16 32) = none ∧
      firstValidationError 4 (ScryptParams.mk 4095 8 1 16 32) = some WorkerError.invalidCostRange ∧
      firstValidationError 4 (ScryptParams.mk 524289 8 1 16 32) = some WorkerError.invalidCostRange ∧
      firstValidationError 4 (ScryptParams.mk 5000 8 1 16 32) = some WorkerError.invalidCostNotPowerOfTwo ∧
      firstValidationError 4 (ScryptParams.mk 4096 1 1 16 32) = none ∧
      firstValidationError 4 (ScryptParams.mk 4096 16 1 16 32) = none ∧
      firstValidationError 4 (ScryptParams.mk 4096 0 1 16 32) = some WorkerError.invalidBlockSize ∧
      firstValidationError 4 (ScryptParams.mk 4096 17 1 16 32) = some WorkerError.invalidBlockSize ∧
      firstValidationError 4 (ScryptParams.mk 4096 8 16 16 32) = none ∧
      firstValidationError 4 (ScryptParams.mk 4096 8 0 16 32) = some WorkerError.invalidParallelization ∧
      firstValidationError 4 (ScryptParams.mk 4096 8 17 16 32) = some WorkerError.invalidParallelization ∧
      firstValidationError 4 (ScryptParams.mk 4096 8 1 47 32) = none ∧
      firstValidationError 4 (ScryptParams.mk 4096 8 1 15 32) = some WorkerError.invalidSaltlen ∧
      firstValidationError 4 (ScryptParams.mk 4096 8 1 48 32) = some WorkerError.invalidSaltlen ∧
      firstValidationError 4 (ScryptParams.mk 4096 8 1 16 16) = none ∧
      firstValidationError 4 (ScryptParams.mk 4096 8 1 16 271) = none ∧
      firstValidationError 4 (ScryptParams.mk 4096 8 1 16 15) = some WorkerError.invalidKeylen ∧
      firstValidationError 4 (ScryptParams.mk 4096 8 1 16 272) = some WorkerError.invalidKeylen) := by
  have hlen := hkdf data salt p.keylen p.cost p.blockSize p.parallelization
  refine ⟨fun e => ?_, fun hnone => ?_, by decide⟩
  · unfold _hash firstValidationError
    rw [if_pos hsalt.symm]
    split_ifs <;> simp_all
  · unfold firstValidationError at hnone
    split_ifs at hnone with h1 h2 h3 h4 h5 h6 h7
    exact ⟨_, _hash_ok kdf data salt p h1 hsalt ⟨h2.1, h2.2⟩ h3 h4 h5 h6 h7 hlen⟩

/-- Witness for C5: the boundary block applied at a concrete
instantiation. -/
theorem C5_validation_witness :
    firstValidationError 4 (ScryptParams.mk 4096 8 1 16 32) = none :=
  (C5_validation_order kdfZero (fun _ _ kl _ _ _ => by simp [kdfZero]) "test"
    (List.replicate 16 0) (ScryptParams.mk 4096 8 1 16 32) (by decide)).2.2.1

/-- C6: for every valid parameter set (cost = 2^k with k in [12, 19]) and
salt of the declared length, hash emits exactly the version 2 layout:
byte 0 = 2, byte 1 = ((blockSize-1) <<< 4) ||| (parallelization-1),
byte 2 = ((k-12) <<< 5) ||| (saltlen-16), byte 3 = keylen-16, then the
salt, then the derived key, for a total of 4 + saltlen + keylen bytes;
in particular the parameters {cost 16384, blockSize 8, parallelization 4,
saltlen 20, keylen 32} encode byte 1 = 0x73, byte 2 = 0x44,
byte 3 = 16. -/
theorem C6_v2_encoding (kdf : KDF)
    (hkdf : ∀ d s kl c bs pl, (kdf d s kl c bs pl).length = kl)
    (p : ScryptParams) (k : Nat)
    (hcost : p.cost = 2 ^ k) (hk1 : 12 ≤ k) (hk2 : k ≤ 19)
    (hbs : 1 ≤ p.blockSize ∧ p.blockSize ≤ 16)
    (hpl : 1 ≤ p.parallelization ∧ p.parallelization ≤ 16)
    (hsl : 16 ≤ p.saltlen ∧ p.saltlen ≤ 47)
    (hkl : 16 ≤ p.keylen ∧ p.keylen ≤ 271)
    (data : String) (hdata : 0 < data.length ∧ data.length ≤ 2048)
    (salt : List Nat) (hsalt : salt.length = p.saltlen) :
    hash kdf salt data p = Except.ok
      ([2, ((p.blockSize - 1) <<< 4) ||| (p.parallelization - 1),
        ((k - 12) <<< 5) ||| (p.saltlen - 16), p.keylen - 16] ++ salt ++
        kdf data salt p.keylen p.cost p.blockSize p.parallelization) ∧
    (hash kdf salt data p).map List.length = Except.ok (4 + p.saltlen + p.keylen) ∧
    (p = (ScryptParams.mk 16384 8 4 20 32) →
      (hash kdf salt data p).map
          (fun record => (record.getD 0 0, record.getD 1 0, record.getD 2 0, record.getD 3 0))
        = Except.ok (2, 0x73, 0x44, 16)) := by
  obtain ⟨hc1, hc2, hpow⟩ := exp_range_facts k hk1 hk2
  rw [← hcost] at hc1 hc2 hpow
  have hlen := hkdf data salt p.keylen p.cost p.blockSize p.parallelization
  have hok := _hash_ok kdf data salt p hdata hsalt ⟨hc1, hc2⟩ hpow hbs hpl hsl hkl hlen
  have hlog : Nat.log2 p.cost = k := by rw [hcost]; exact log2_two_pow k
  have hmain : hash kdf salt data p = Except.ok
      ([2, ((p.blockSize - 1) <<< 4) ||| (p.parallelization - 1),
        ((k - 12) <<< 5) ||| (p.saltlen - 16), p.keylen - 16] ++ salt ++
        kdf data salt p.keylen p.cost p.blockSize p.parallelization) := by
    unfold hash
    rw [hok, hlog]
    simp only [BINARY_VERSION]
  refine ⟨hmain, ?_, fun hp => ?_⟩
  · rw [hmain]
    simp only [Except.map, List.length_append, List.length_cons, List.length_nil, hsalt, hlen]
  · have hck : (2 : Nat) ^ k = 16384 := by rw [← hcost, hp]
    have hk14 : k = 14 := Nat.pow_right_injective (by norm_num) (hck.trans (by norm_num))
    subst hk14
    rw [hmain, hp]
    simp only [Except.map, List.cons_append, List.nil_append, List.getD_cons_zero,
      List.getD_cons_succ]
    rfl

/-- Witness for C6: the literal encoding check of the claim at the
parameters {cost 16384, blockSize 8, parallelization 4, saltlen 20,
keylen 32}. -/
theorem C6_v2_encoding_witness :
    (hash kdfZero (List.replicate 20 0) "test"
        (ScryptParams.mk 16384 8 4 20 32)).map
      (fun record => (record.getD 0 0, record.getD 1 0, record.getD 2 0, record.getD 3 0))
      = Except.ok (2, 0x73, 0x44, 16) :=
  (C6_v2_encoding kdfZero (fun _ _ kl _ _ _ => by simp [kdfZero])
    (ScryptParams.mk 16384 8 4 20 32) 14
    (by decide) (by decide) (by decide) (by decide) (by decide) (by decide) (by decide)
    "test" (by decide) (List.replicate 20 0) (by decide)).2.2 rfl

end ScryptServer
